import Mathlib

/-!
Shallow embedding of the kv task service (persistent recurring-task
scheduler and run ledger) found in the repository's `package kv` source
file, together with theorems settling the specification's claims.

Modelling conventions, justified against the source:

* Identifiers (`influxdb.ID`, a uint64 whose `Encode` yields a fixed-width
  16-hex-digit string and fails exactly on the zero id) are modelled as
  `Nat`; encoding validity is the side condition `≠ 0` where a claim
  mentions it.  Because the encoding is fixed width and injective, the
  byte-string keys `encode(taskID)`, `encode(taskID)+"/"+encode(runID)`,
  `encode(taskID)+"/manualRuns"` and `encode(taskID)+"/latestCompleted"`
  are pairwise distinguishable and sort contiguously under a task's
  prefix; we therefore model the run bucket as three partitions addressed
  by structured keys, and the cursor scan of `currentlyRunning` as the
  filtered segment of run-shaped keys of that task.
* Times (RFC3339 strings in the stored records, `int64` unix seconds at
  the API) are modelled as `Int` unix seconds; the zero `time.Time` used
  by `finishRun` when no latest-completed pointer exists corresponds to
  unix second -62135596800.  Empty-string time fields (a cleared
  `requestedAt` / `startedAt` / `finishedAt`) are `none`.
* The external cron evaluator (out of scope per the spec) is modelled by
  a per-task function `schedNext : Int → Int` (the parsed schedule's
  "next tick strictly after" map) and a parsed `offset : Int`.
* Storage buckets are association lists; `Get` of a missing key is
  `none`, mirroring the kv abstraction's `ErrKeyNotFound`.  A whole
  service call (`s.kv.Update`) commits all-or-nothing, so the public
  wrappers return the original state when the inner function errors.
* The id generator lives outside the transaction in the source; we carry
  its counter in the state.  No claim observes the counter itself.
-/

namespace TaskKV

/-- Run record, mirroring the `influxdb.Run` JSON record stored by the
service: id, owning task id, `scheduledFor` (always set by this core),
optional `requestedAt`/`startedAt`/`finishedAt` (empty string = `none`),
a status string (the Go zero value is the empty string), and the log. -/
structure Run where
  id : Nat
  taskID : Nat
  scheduledFor : Int
  requestedAt : Option Int := none
  startedAt : Option Int := none
  finishedAt : Option Int := none
  status : String := ""
  log : List (Int × String) := []
deriving Repr, DecidableEq

/-- Task record, keeping the fields the run-scheduling core reads:
identity, owning organization, creation time, and the parsed schedule
(the external cron evaluator's "next tick strictly after" function
obtained from `cron.Parse(task.EffectiveCron())`) with parsed offset. -/
structure Task where
  id : Nat
  orgID : Nat
  createdAt : Int
  offset : Int := 0
  schedNext : Int → Int

/-- Service state: the three buckets of the storage schema plus the id
generator's counter.  The run bucket (`taskRunsv1`) is split into its
three key shapes: `taskID/runID` entries (`running`), the single
`taskID/manualRuns` list (`manual`, absent key = no entry), and the
single `taskID/latestCompleted` snapshot (`latest`).  `taskBucketRunKeys`
holds run-shaped keys written into the task bucket (`tasksv1`) — the
source's `cancelRun` writes there. -/
structure State where
  tasks : List (Nat × Task)
  taskBucketRunKeys : List ((Nat × Nat) × Run) := []
  running : List ((Nat × Nat) × Run) := []
  manual : List (Nat × List Run) := []
  latest : List (Nat × Run) := []
  orgIndex : List ((Nat × Nat) × Nat) := []
  nextID : Nat

/-- Association-list lookup (bucket `Get`). -/
def lookupA {κ α : Type} [DecidableEq κ] : List (κ × α) → κ → Option α
  | [], _ => none
  | (k, v) :: rest, key => if k = key then some v else lookupA rest key

/-- Association-list overwrite-or-append (bucket `Put`). -/
def insertA {κ α : Type} [DecidableEq κ] : List (κ × α) → κ → α → List (κ × α)
  | [], key, v => [(key, v)]
  | (k, w) :: rest, key, v =>
      if k = key then (key, v) :: rest else (k, w) :: insertA rest key v

/-- Association-list removal (bucket `Delete`; deleting a missing key is
a no-op, as in the kv abstraction). -/
def eraseA {κ α : Type} [DecidableEq κ] : List (κ × α) → κ → List (κ × α)
  | [], _ => []
  | (k, w) :: rest, key =>
      if k = key then eraseA rest key else (k, w) :: eraseA rest key

/-- Error values of the service (the `influxdb.Error` singletons and
constructors of the source, plus `backend.RunNotYetDueError`). -/
inductive Err where
  | invalidTaskID
  | taskNotFound
  | runNotFound
  | orgNotFound
  | pageSizeTooSmall
  | pageSizeTooLarge
  | runAlreadyQueued
  | unexpectedTaskBucket
  | internalService
  | timeParse
  | runNotYetDue (dueAt : Int)
deriving Repr, DecidableEq

/-- Error kinds (the `influxdb` error codes: `EInvalid`, `ENotFound`,
`EConflict`, `EInternal`); `RunNotYetDueError` is its own kind since it
is not an `influxdb.Error`. -/
inductive ErrKind where
  | invalid
  | notFound
  | conflict
  | internal
  | notYetDue
deriving Repr, DecidableEq

/-- Kind of each error value, following the `Code:` field each error is
declared with in the source. -/
def Err.kind : Err → ErrKind
  | .invalidTaskID => .invalid
  | .taskNotFound => .notFound
  | .runNotFound => .notFound
  | .orgNotFound => .notFound
  | .pageSizeTooSmall => .invalid
  | .pageSizeTooLarge => .invalid
  | .runAlreadyQueued => .conflict
  | .unexpectedTaskBucket => .internal
  | .internalService => .internal
  | .timeParse => .invalid
  | .runNotYetDue _ => .notYetDue

/-- Unix second of the zero `time.Time` (January 1, year 1 UTC), the
comparison baseline `finishRun` uses when no latest-completed pointer
exists. -/
def zeroTimeUnix : Int := -62135596800

/-- Maximum page size (`influxdb.TaskMaxPageSize`) used by `findRuns`
when the filter carries no limit.  The exact value is immaterial to
every claim settled here (all concrete stores are far smaller). -/
def taskMaxPageSize : Nat := 500

/-- Source `findTaskByID`: `Get` of the task key, `ErrTaskNotFound` when
absent.  The source additionally populates the derived display-only
`LatestCompleted` field of the returned record; no claim reads it, and
the scheduling code reads only `CreatedAt` and the parsed schedule, so
the record is returned as stored. -/
def findTaskByID (st : State) (t : Nat) : Except Err Task :=
  match lookupA st.tasks t with
  | none => .error .taskNotFound
  | some task => .ok task

/-- Source `manualRuns`: `Get` of `taskID/manualRuns`; a missing key
(`ErrKeyNotFound`) yields the empty list. -/
def manualRuns (st : State) (t : Nat) : List Run :=
  (lookupA st.manual t).getD []

/-- Cursor walk of the source `currentlyRunning` over the run-shaped
keys of task `t` (the seek-to-prefix scan; reserved-suffix keys live in
the other partitions of the model): collect records while the record's
own `TaskID` field equals `t`, stopping at the first mismatch. -/
def currentlyRunningGo (t : Nat) : List ((Nat × Nat) × Run) → List Run
  | [] => []
  | (_, r) :: rest => if r.taskID = t then r :: currentlyRunningGo t rest else []

/-- Source `currentlyRunning`: the scan of the run bucket from the
task's key prefix. -/
def currentlyRunning (st : State) (t : Nat) : List Run :=
  currentlyRunningGo t (st.running.filter (fun p => p.1.1 == t))

/-- Source `findRuns` with a filter carrying only the task (as
`deleteTask` calls it): limit defaults to the max page size; manual runs
first, then currently-running, truncated at the limit. -/
def findRuns (st : State) (t : Nat) : List Run :=
  (manualRuns st t ++ currentlyRunning st t).take taskMaxPageSize

/-- Source `findRunByID`: `Get` of `taskID/runID` in the run bucket.
The source's error branches are
`if err != ErrKeyNotFound { return nil, ErrRunNotFound }` followed by
`return nil, ErrUnexpectedTaskBucketErr(err)`, so a missing key
(`ErrKeyNotFound`) reaches the second return and yields the
internal-kind bucket error, not `ErrRunNotFound`. -/
def findRunByID (st : State) (t rid : Nat) : Except Err Run :=
  match lookupA st.running (t, rid) with
  | none => .error .unexpectedTaskBucket
  | some run => .ok run

/-- Source `findLatestCompleted`: `Get` of `taskID/latestCompleted`,
`none` when absent. -/
def findLatestCompleted (st : State) (t : Nat) : Option Run :=
  lookupA st.latest t

/-- Source `findLatestCompletedTime`: the pointer's `scheduledFor`, or
the zero time (`none`) when the pointer is absent. -/
def findLatestCompletedTime (st : State) (t : Nat) : Option Int :=
  (findLatestCompleted st t).map (fun r => r.scheduledFor)

/-- Latest-completed `scheduledFor` with the absent pointer read as the
zero time, the comparison value `finishRun` builds in `lTime`. -/
def latestSchedFor (st : State) (t : Nat) : Int :=
  (findLatestCompletedTime st t).getD zeroTimeUnix

/-- Source `nextDueRun`: anchor at the latest-completed time (falling
back to the task's created-at when the pointer is absent) and return the
schedule's next tick after the anchor.  Note the source returns
`nextScheduled.Unix()` without applying the offset. -/
def nextDueRun (st : State) (t : Nat) : Except Err Int := do
  let task ← findTaskByID st t
  let anchor := (findLatestCompletedTime st t).getD task.createdAt
  .ok (task.schedNext anchor)

/-- Source `finishRun`: load the run (through `findRunByID`), compare
its `scheduledFor` to the latest-completed pointer's (zero time when the
pointer is absent), overwrite the pointer when strictly newer —
independent of the run's status, which is never read — then delete the
run's key from the currently-running partition. -/
def finishRun (st : State) (t rid : Nat) : Except Err (State × Run) := do
  let r ← findRunByID st t rid
  let st1 := if r.scheduledFor > latestSchedFor st t
             then { st with latest := insertA st.latest t r }
             else st
  .ok ({ st1 with running := eraseA st1.running (t, rid) }, r)

/-- Source `cancelRun`: load the run, set its status to "canceled", and
`Put` the marshalled record at the run key — into the bucket obtained
from `tx.Bucket(taskBucket)`, the TASK bucket, not the run bucket; the
run-ledger record itself is left as it was. -/
def cancelRun (st : State) (t rid : Nat) : Except Err State := do
  let r ← findRunByID st t rid
  let canceled := { r with status := "canceled" }
  .ok { st with taskBucketRunKeys := insertA st.taskBucketRunKeys (t, rid) canceled }

/-- Source `retryRun`: load the run, give it a fresh id and clear
`status`/`startedAt`/`finishedAt`/`requestedAt`, then read the manual
queue with a raw `Get`.  As in `findRunByID`, the source's branches on
the `Get` error are inverted, so a missing `taskID/manualRuns` key
(`ErrKeyNotFound`) returns `ErrUnexpectedTaskBucketErr`; when the key is
present the clone is appended and the list written back.  The original
run's key is never written. -/
def retryRun (st : State) (t rid : Nat) : Except Err (State × Run) := do
  let r ← findRunByID st t rid
  let clone := { r with id := st.nextID, status := "", startedAt := none,
                        finishedAt := none, requestedAt := none }
  let st1 := { st with nextID := st.nextID + 1 }
  match lookupA st1.manual t with
  | none => .error .unexpectedTaskBucket
  | some runs =>
      .ok ({ st1 with manual := insertA st1.manual t (runs ++ [clone]) }, clone)

/-- Run record built by `forceRun`: fresh id, owning task, `requestedAt`
set to the wall-clock now, `scheduledFor` the requested time; all other
fields are the Go zero values. -/
def forcedRun (id t : Nat) (v now : Int) : Run :=
  { id := id, taskID := t, scheduledFor := v, requestedAt := some now }

/-- Source `forceRun`: build the run (drawing a fresh id first, as the
source does), read the manual queue (missing key = empty list), fail
with `ErrTaskRunAlreadyQueued` if any queued entry has the identical
`scheduledFor`, else append and write back.  The task record is never
read. -/
def forceRun (st : State) (t : Nat) (v now : Int) : Except Err (State × Run) :=
  let r := forcedRun st.nextID t v now
  let st1 := { st with nextID := st.nextID + 1 }
  let runs := manualRuns st1 t
  if runs.any (fun run => run.scheduledFor == v) then
    .error .runAlreadyQueued
  else
    .ok ({ st1 with manual := insertA st1.manual t (runs ++ [r]) }, r)

/-- Result of a `CreateNextRun` call (`backend.RunCreation` with its
embedded `QueuedRun`); `requestedAt` keeps its zero value unless the
popped manual run carried a non-zero requested-at time. -/
structure RunCreation where
  taskID : Nat
  runID : Nat
  now : Int
  requestedAt : Int := 0
  nextDue : Int
  hasQueue : Bool
deriving Repr, DecidableEq

/-- Status string of a freshly scheduled run
(`backend.RunScheduled.String()`). -/
def runScheduledStr : String := "scheduled"

/-- Anchor time of `createNextRun`'s scheduled branch: the task's
created-at, advanced to the latest-completed pointer's `scheduledFor`
when that is strictly later (source lines building `latestCompleted`
from `task.CreatedAt` and `findLatestCompleted`). -/
def schedAnchor (st : State) (t : Nat) (task : Task) : Int :=
  match findLatestCompleted st t with
  | some lr => if lr.scheduledFor > task.createdAt then lr.scheduledFor
               else task.createdAt
  | none => task.createdAt

/-- Due time of `createNextRun`'s scheduled branch: the schedule's next
tick strictly after the anchor, plus the offset. -/
def schedDueAt (st : State) (t : Nat) (task : Task) : Int :=
  task.schedNext (schedAnchor st t task) + task.offset

/-- Run record built by `createNextRun`'s scheduled branch: fresh id,
owning task, `scheduledFor` at the tick, status "scheduled", everything
else the Go zero value. -/
def schedRun (id t : Nat) (sf : Int) : Run :=
  { id := id, taskID := t, scheduledFor := sf, status := runScheduledStr }

/-- Source `createNextRun`.  Load the task; if the manual queue is
non-empty, pop its head, write the tail back, move the head (unchanged)
into the currently-running partition and report its `scheduledFor` as
the logical now together with `nextDueRun`'s value and whether the tail
is non-empty.  Otherwise anchor at the later of created-at and the
latest-completed pointer's `scheduledFor`, take the schedule's next tick
after the anchor, add the offset; if that due time is after now, fail
with the not-yet-due signal; else persist a new run with status
"scheduled" at the tick and report the subsequent due time. -/
def createNextRun (st : State) (t : Nat) (now : Int) :
    Except Err (State × RunCreation) := do
  let task ← findTaskByID st t
  match manualRuns st t with
  | mRun :: rest =>
      let st1 := { st with manual := insertA st.manual t rest }
      let st2 := { st1 with running := insertA st1.running (t, mRun.id) mRun }
      let nextDue ← nextDueRun st2 t
      .ok (st2, { taskID := t, runID := mRun.id, now := mRun.scheduledFor,
                  requestedAt := mRun.requestedAt.getD 0,
                  nextDue := nextDue, hasQueue := !rest.isEmpty })
  | [] =>
      let nextScheduled := task.schedNext (schedAnchor st t task)
      let dueAt := nextScheduled + task.offset
      if dueAt > now then .error (.runNotYetDue dueAt)
      else
        let id := st.nextID
        let run := schedRun id t nextScheduled
        let st1 := { st with nextID := st.nextID + 1 }
        let st2 := { st1 with running := insertA st1.running (t, id) run }
        .ok (st2, { taskID := t, runID := id, now := nextScheduled,
                    nextDue := task.schedNext nextScheduled + task.offset,
                    hasQueue := false })

/-- Source `deleteTask`: load the task, delete the org-index entry, the
latest-completed key, then the `taskID/runID` key of every run returned
by `findRuns` (for queued manual runs no such key exists, so those
deletes are no-ops), and finally the task record.  The
`taskID/manualRuns` key is never deleted. -/
def deleteTask (st : State) (t : Nat) : Except Err State := do
  let task ← findTaskByID st t
  let st1 := { st with orgIndex := eraseA st.orgIndex (task.orgID, t) }
  let st2 := { st1 with latest := eraseA st1.latest t }
  let runs := findRuns st2 t
  let st3 := runs.foldl (fun s run => { s with running := eraseA s.running (t, run.id) }) st2
  .ok { st3 with tasks := eraseA st3.tasks t }

/-- Run statuses the executor reports through `UpdateRunState`
(`backend.RunStatus`). -/
inductive RunStatus where
  | scheduled
  | started
  | success
  | failed
  | canceled
deriving Repr, DecidableEq

/-- String form of a run status (`RunStatus.String()` in the source). -/
def RunStatus.toStr : RunStatus → String
  | .scheduled => "scheduled"
  | .started => "started"
  | .success => "success"
  | .failed => "failed"
  | .canceled => "canceled"

/-- Source `updateRunState`: load the run, set the status string, set
`startedAt` on the started transition and `finishedAt` on any terminal
transition, write the run back at its key in the run bucket. -/
def updateRunState (st : State) (t rid : Nat) (when : Int) (state : RunStatus) :
    Except Err State := do
  let r ← findRunByID st t rid
  let r1 := { r with status := state.toStr }
  let r2 :=
    match state with
    | .started => { r1 with startedAt := some when }
    | .success | .failed | .canceled => { r1 with finishedAt := some when }
    | .scheduled => r1
  .ok { st with running := insertA st.running (t, rid) r2 }

/-- Source `addRunLog`: load the run, append one log entry, write the
run back at its key. -/
def addRunLog (st : State) (t rid : Nat) (when : Int) (msg : String) :
    Except Err State := do
  let r ← findRunByID st t rid
  let r1 := { r with log := r.log ++ [(when, msg)] }
  .ok { st with running := insertA st.running (t, rid) r1 }

/-! Public operations: each runs its inner function inside
`s.kv.Update(...)`, whose all-or-nothing commit leaves the state
unchanged when the inner function errors. -/

/-- Public `ForceRun`. -/
def ForceRun (st : State) (t : Nat) (v now : Int) : State × Except Err Run :=
  match forceRun st t v now with
  | .ok (st', r) => (st', .ok r)
  | .error e => (st, .error e)

/-- Public `RetryRun`. -/
def RetryRun (st : State) (t rid : Nat) : State × Except Err Run :=
  match retryRun st t rid with
  | .ok (st', r) => (st', .ok r)
  | .error e => (st, .error e)

/-- Public `CancelRun`. -/
def CancelRun (st : State) (t rid : Nat) : State × Except Err Unit :=
  match cancelRun st t rid with
  | .ok st' => (st', .ok ())
  | .error e => (st, .error e)

/-- Public `CreateNextRun`. -/
def CreateNextRun (st : State) (t : Nat) (now : Int) :
    State × Except Err RunCreation :=
  match createNextRun st t now with
  | .ok (st', rc) => (st', .ok rc)
  | .error e => (st, .error e)

/-- Public `FinishRun`. -/
def FinishRun (st : State) (t rid : Nat) : State × Except Err Run :=
  match finishRun st t rid with
  | .ok (st', r) => (st', .ok r)
  | .error e => (st, .error e)

/-- Public `DeleteTask`. -/
def DeleteTask (st : State) (t : Nat) : State × Except Err Unit :=
  match deleteTask st t with
  | .ok st' => (st', .ok ())
  | .error e => (st, .error e)

/-- Public `UpdateRunState`. -/
def UpdateRunState (st : State) (t rid : Nat) (when : Int) (state : RunStatus) :
    State × Except Err Unit :=
  match updateRunState st t rid when state with
  | .ok st' => (st', .ok ())
  | .error e => (st, .error e)

/-- Public `AddRunLog`. -/
def AddRunLog (st : State) (t rid : Nat) (when : Int) (msg : String) :
    State × Except Err Unit :=
  match addRunLog st t rid when msg with
  | .ok st' => (st', .ok ())
  | .error e => (st, .error e)

/-- Public `FindRunByID` (a read-only `View` transaction; no writes). -/
def FindRunByID (st : State) (t rid : Nat) : Except Err Run :=
  findRunByID st t rid

/-! Association-list lemmas shared by the claim proofs. -/

theorem lookupA_insertA {κ α : Type} [DecidableEq κ] (l : List (κ × α)) (k : κ) (v : α) :
    lookupA (insertA l k v) k = some v := by
  induction l with
  | nil => simp [insertA, lookupA]
  | cons hd tl ih =>
      obtain ⟨k', v'⟩ := hd
      by_cases h : k' = k
      · simp [insertA, lookupA, h]
      · simp [insertA, lookupA, h, ih]

theorem lookupA_eraseA {κ α : Type} [DecidableEq κ] (l : List (κ × α)) (k : κ) :
    lookupA (eraseA l k) k = none := by
  induction l with
  | nil => simp [eraseA, lookupA]
  | cons hd tl ih =>
      obtain ⟨k', v'⟩ := hd
      by_cases h : k' = k
      · simp [eraseA, h, ih]
      · simp [eraseA, lookupA, h, ih]

/-! Branch lemmas for `forceRun` and `createNextRun`, shared by several
claim proofs. -/

/-- ForceRun with an entry of the identical `scheduledFor` already in
the manual queue: conflict error, state rolled back. -/
theorem forceRun_conflict (st : State) (t : Nat) (v now : Int)
    (h : (manualRuns st t).any (fun run => run.scheduledFor == v) = true) :
    ForceRun st t v now = (st, .error .runAlreadyQueued) := by
  have hm : manualRuns { st with nextID := st.nextID + 1 } t = manualRuns st t := rfl
  simp only [ForceRun, forceRun, hm, h]
  simp

/-- ForceRun with no queued entry of that `scheduledFor`: the new run is
appended to the queue's tail and returned. -/
theorem forceRun_ok (st : State) (t : Nat) (v now : Int)
    (h : (manualRuns st t).any (fun run => run.scheduledFor == v) = false) :
    ForceRun st t v now =
      ({ st with nextID := st.nextID + 1,
                 manual := insertA st.manual t
                   (manualRuns st t ++ [forcedRun st.nextID t v now]) },
       .ok (forcedRun st.nextID t v now)) := by
  have hm : manualRuns { st with nextID := st.nextID + 1 } t = manualRuns st t := rfl
  simp only [ForceRun, forceRun, hm, h]
  rfl

/-- CreateNextRun with an empty manual queue and the due time not yet
reached: the not-yet-due signal carrying the due time, no state change. -/
theorem createNextRun_notYetDue (st : State) (t : Nat) (now : Int) (task : Task)
    (htask : lookupA st.tasks t = some task)
    (hq : manualRuns st t = [])
    (hdue : schedDueAt st t task > now) :
    CreateNextRun st t now = (st, .error (.runNotYetDue (schedDueAt st t task))) := by
  have hdue' : task.schedNext (schedAnchor st t task) + task.offset > now := hdue
  simp only [CreateNextRun, createNextRun, findTaskByID, htask, hq]
  simp only [Bind.bind, Except.bind]
  rw [if_pos hdue']
  rfl

/-- CreateNextRun with an empty manual queue and the due time reached:
one new run with status "scheduled" at the tick is persisted into the
currently-running partition, and the creation result reports the tick as
the logical now and the subsequent due time. -/
theorem createNextRun_scheduled (st : State) (t : Nat) (now : Int) (task : Task)
    (htask : lookupA st.tasks t = some task)
    (hq : manualRuns st t = [])
    (hdue : schedDueAt st t task ≤ now) :
    CreateNextRun st t now =
      ({ st with nextID := st.nextID + 1,
                 running := insertA st.running (t, st.nextID)
                   (schedRun st.nextID t (task.schedNext (schedAnchor st t task))) },
       .ok { taskID := t, runID := st.nextID,
             now := task.schedNext (schedAnchor st t task),
             nextDue := task.schedNext (task.schedNext (schedAnchor st t task)) + task.offset,
             hasQueue := false }) := by
  have hdue' : ¬ (task.schedNext (schedAnchor st t task) + task.offset > now) :=
    not_lt.mpr hdue
  simp only [CreateNextRun, createNextRun, findTaskByID, htask, hq]
  simp only [Bind.bind, Except.bind]
  rw [if_neg hdue']

/-- CreateNextRun with a non-empty manual queue: the head is popped, the
tail written back, the head moved unchanged into the currently-running
partition, and the result carries the head's id and `scheduledFor`,
whether the tail is non-empty, and the next due time from the unmodified
schedule. -/
theorem createNextRun_manual (st : State) (t : Nat) (now : Int) (task : Task)
    (mRun : Run) (rest : List Run)
    (htask : lookupA st.tasks t = some task)
    (hq : lookupA st.manual t = some (mRun :: rest)) :
    CreateNextRun st t now =
      ({ st with manual := insertA st.manual t rest,
                 running := insertA st.running (t, mRun.id) mRun },
       .ok { taskID := t, runID := mRun.id, now := mRun.scheduledFor,
             requestedAt := mRun.requestedAt.getD 0,
             nextDue := task.schedNext ((findLatestCompletedTime st t).getD task.createdAt),
             hasQueue := !rest.isEmpty }) := by
  have hmr : manualRuns st t = mRun :: rest := by simp [manualRuns, hq]
  have hnd : nextDueRun
      { st with manual := insertA st.manual t rest,
                running := insertA st.running (t, mRun.id) mRun } t =
      .ok (task.schedNext ((findLatestCompletedTime st t).getD task.createdAt)) := by
    simp [nextDueRun, findTaskByID, htask, findLatestCompletedTime, findLatestCompleted,
          Bind.bind, Except.bind]
  simp only [CreateNextRun, createNextRun, findTaskByID, htask, hmr]
  simp only [Bind.bind, Except.bind]
  rw [hnd]

/-- FinishRun on a run present in the currently-running partition: the
resulting state in closed form — latest-completed overwritten exactly
when the run's `scheduledFor` is strictly newer, and the run's key
erased. -/
theorem finishRun_eq (st : State) (t rid : Nat) (run : Run)
    (h : lookupA st.running (t, rid) = some run) :
    FinishRun st t rid =
      ((if run.scheduledFor > latestSchedFor st t
        then { st with latest := insertA st.latest t run,
                       running := eraseA st.running (t, rid) }
        else { st with running := eraseA st.running (t, rid) }),
       .ok run) := by
  have h1 : findRunByID st t rid = .ok run := by simp [findRunByID, h]
  simp only [FinishRun, finishRun, h1, Bind.bind, Except.bind]
  by_cases hc : run.scheduledFor > latestSchedFor st t
  · rw [if_pos hc, if_pos hc]
  · rw [if_neg hc, if_neg hc]

/-! Concrete fixtures used by the scenario theorems. -/

/-- Task with a 30-second interval schedule (`@every 30s`, whose next
tick after `t` is `t + 30` seconds), zero offset, created at `T0`,
owned by organization 7. -/
def intervalTask (T0 : Int) : Task :=
  { id := 1, orgID := 7, createdAt := T0, schedNext := fun t => t + 30 }

/-- Fresh store holding only the interval task, id generator at 5. -/
def intervalState (T0 : Int) : State :=
  { tasks := [(1, intervalTask T0)], nextID := 5 }

/-- Queued manual run fixture (as `ForceRun` would have built it). -/
def queuedRun : Run :=
  { id := 4, taskID := 1, scheduledFor := 90, requestedAt := some 100 }

/-- Latest-completed run fixture. -/
def latestRunFix : Run :=
  { id := 2, taskID := 1, scheduledFor := 30, status := "success" }

/-- Mid-execution run fixture sitting in the currently-running
partition. -/
def startedRun : Run :=
  { id := 3, taskID := 1, scheduledFor := 60, status := "started",
    startedAt := some 61 }

/-- Completed run fixture with every execution field populated. -/
def finishedRun : Run :=
  { id := 3, taskID := 1, scheduledFor := 60, status := "success",
    requestedAt := some 10, startedAt := some 61, finishedAt := some 62 }

/-- Store for the lifecycle fixtures: the interval task with one
mid-execution run in the currently-running partition and no
latest-completed pointer. -/
def lifecycleState : State :=
  { tasks := [(1, intervalTask 0)], running := [((1, 3), startedRun)], nextID := 10 }

/-- C3: for every task T and run R in T's currently-running partition,
FinishRun removes R from that partition and overwrites the
latest-completed pointer with R exactly when R's `scheduledFor` is
strictly after the pointer's (an absent pointer counting as the zero
time) — independent of R's status, which the statement never
constrains; otherwise the pointer is unchanged. -/
theorem finishRun_removes_and_promotes (st : State) (t rid : Nat) (run : Run)
    (h : lookupA st.running (t, rid) = some run) :
    FinishRun st t rid =
      ((if run.scheduledFor > latestSchedFor st t
        then { st with latest := insertA st.latest t run,
                       running := eraseA st.running (t, rid) }
        else { st with running := eraseA st.running (t, rid) }),
       .ok run) ∧
    lookupA (FinishRun st t rid).1.running (t, rid) = none := by
  have he := finishRun_eq st t rid run h
  refine ⟨he, ?_⟩
  rw [he]
  by_cases hc : run.scheduledFor > latestSchedFor st t
  · rw [if_pos hc]
    exact lookupA_eraseA st.running (t, rid)
  · rw [if_neg hc]
    exact lookupA_eraseA st.running (t, rid)

/-- Witness for C3 at a concrete store: finishing the mid-execution run
promotes it to latest completed (absent pointer = zero time) and removes
it from the currently-running partition. -/
theorem finishRun_removes_and_promotes_witness :
    FinishRun lifecycleState 1 3 =
      ((if startedRun.scheduledFor > latestSchedFor lifecycleState 1
        then { lifecycleState with latest := insertA lifecycleState.latest 1 startedRun,
                                   running := eraseA lifecycleState.running (1, 3) }
        else { lifecycleState with running := eraseA lifecycleState.running (1, 3) }),
       .ok startedRun) ∧
    lookupA (FinishRun lifecycleState 1 3).1.running (1, 3) = none :=
  finishRun_removes_and_promotes lifecycleState 1 3 startedRun rfl

/-- C7 (code bug): `cancelRun` writes the canceled record into the TASK
bucket (`tx.Bucket(taskBucket)`), not the run bucket, so after a
successful CancelRun the run-ledger record still carries its old status:
a subsequent FindRunByID observes "started", not "canceled", while a
run-shaped key holding the canceled copy appears in the task bucket. -/
theorem cancelRun_wrong_bucket :
    (CancelRun lifecycleState 1 3).2 = .ok () ∧
    FindRunByID (CancelRun lifecycleState 1 3).1 1 3 = .ok startedRun ∧
    startedRun.status = "started" ∧
    startedRun.status ≠ "canceled" ∧
    lookupA (CancelRun lifecycleState 1 3).1.taskBucketRunKeys (1, 3) =
      some { startedRun with status := "canceled" } :=
  ⟨rfl, rfl, rfl, by decide, rfl⟩

/-- Store with a task but no run keyed (1, 3) in the run ledger. -/
def noRunState : State :=
  { tasks := [(1, intervalTask 0)], nextID := 10 }

/-- C9 (code bug): the source's `findRunByID` branches on the `Get`
error are inverted (`if err != ErrKeyNotFound { return ErrRunNotFound }`
falls through to `ErrUnexpectedTaskBucketErr`), so a missing run key
yields the Internal-kind bucket error, not the NotFound-kind
`ErrRunNotFound`; every operation that first loads the run propagates
the same error and, the transaction aborting, performs no writes. -/
theorem findRunByID_missing_internal :
    FindRunByID noRunState 1 3 = .error .unexpectedTaskBucket ∧
    Err.unexpectedTaskBucket.kind = ErrKind.internal ∧
    Err.unexpectedTaskBucket.kind ≠ ErrKind.notFound ∧
    CancelRun noRunState 1 3 = (noRunState, .error .unexpectedTaskBucket) ∧
    RetryRun noRunState 1 3 = (noRunState, .error .unexpectedTaskBucket) ∧
    UpdateRunState noRunState 1 3 61 .started = (noRunState, .error .unexpectedTaskBucket) ∧
    AddRunLog noRunState 1 3 61 "msg" = (noRunState, .error .unexpectedTaskBucket) ∧
    FinishRun noRunState 1 3 = (noRunState, .error .unexpectedTaskBucket) :=
  ⟨rfl, rfl, by decide, rfl, rfl, rfl, rfl, rfl⟩

/-- Clone that `retryRun` builds from `finishedRun` when the id
generator stands at 11. -/
def retryClone : Run :=
  { finishedRun with id := 11, status := "", startedAt := none,
                     finishedAt := none, requestedAt := none }

/-- Store with the completed run still keyed in the currently-running
partition and NO `taskID/manualRuns` key (the state of any task never
forced or retried before). -/
def retryStateNoKey : State :=
  { tasks := [(1, intervalTask 0)], running := [((1, 3), finishedRun)], nextID := 11 }

/-- Same store with the `taskID/manualRuns` key present, holding the
empty list. -/
def retryStateKey : State :=
  { retryStateNoKey with manual := [(1, [])] }

/-- C8 (code bug): when the manual-queue key is absent — a task never
forced or retried, i.e. a previously empty queue — `retryRun`'s
inverted `ErrKeyNotFound` branch fails the whole call with the
Internal-kind bucket error and nothing is appended; when the key is
present the claimed behavior does hold: the clone gets the fresh id
with status/startedAt/finishedAt/requestedAt cleared, is appended to
the queue, and the original record is unchanged under its key. -/
theorem retryRun_empty_queue_fails :
    RetryRun retryStateNoKey 1 3 = (retryStateNoKey, .error .unexpectedTaskBucket) ∧
    Err.unexpectedTaskBucket.kind = ErrKind.internal ∧
    (RetryRun retryStateKey 1 3).2 = .ok retryClone ∧
    retryClone.id = 11 ∧ finishedRun.id = 3 ∧
    lookupA (RetryRun retryStateKey 1 3).1.manual 1 = some [retryClone] ∧
    lookupA (RetryRun retryStateKey 1 3).1.running (1, 3) = some finishedRun :=
  ⟨rfl, rfl, rfl, rfl, rfl, rfl, rfl⟩

/-- C1 (code bug): `createNextRun`'s scheduled branch anchors only on
the latest-completed pointer (despite its own comment announcing "the
latest completed and the latest currently running run's time"), so two
consecutive CreateNextRun calls with no FinishRun between them create
two distinct scheduled runs for the same task with the SAME
`scheduledFor` — here ticks at second 30 for runs 5 and 6 — violating
the at-most-one-queued-run-per-tick invariant. -/
theorem createNextRun_duplicate_tick :
    (CreateNextRun (intervalState 0) 1 30).2 =
      .ok { taskID := 1, runID := 5, now := 30, nextDue := 60, hasQueue := false } ∧
    (CreateNextRun (CreateNextRun (intervalState 0) 1 30).1 1 35).2 =
      .ok { taskID := 1, runID := 6, now := 30, nextDue := 60, hasQueue := false } ∧
    lookupA (CreateNextRun (CreateNextRun (intervalState 0) 1 30).1 1 35).1.running (1, 5) =
      some (schedRun 5 1 30) ∧
    lookupA (CreateNextRun (CreateNextRun (intervalState 0) 1 30).1 1 35).1.running (1, 6) =
      some (schedRun 6 1 30) ∧
    (schedRun 5 1 30).scheduledFor = (schedRun 6 1 30).scheduledFor ∧
    (schedRun 5 1 30).status = "scheduled" ∧ (schedRun 6 1 30).status = "scheduled" ∧
    (5 : Nat) ≠ 6 :=
  ⟨rfl, rfl, rfl, rfl, rfl, rfl, rfl, by decide⟩

/-- Store for the cascade-delete scenario: the interval task with one
currently-running run, one queued manual run, a latest-completed
pointer, and its org-index entry. -/
def cascadeState : State :=
  { tasks := [(1, intervalTask 0)],
    running := [((1, 3), startedRun)],
    manual := [(1, [queuedRun])],
    latest := [(1, latestRunFix)],
    orgIndex := [((7, 1), 1)],
    nextID := 10 }

/-- C2 (code bug): `deleteTask` deletes the org-index entry, the
latest-completed key, the `taskID/runID` keys of the runs `findRuns`
returns, and the task record — but never the `taskID/manualRuns` key,
so after a successful DeleteTask the manual-run-queue key (with its
queued run) is still in storage. -/
theorem deleteTask_leaves_manual_queue :
    (DeleteTask cascadeState 1).2 = .ok () ∧
    lookupA (DeleteTask cascadeState 1).1.tasks 1 = none ∧
    lookupA (DeleteTask cascadeState 1).1.latest 1 = none ∧
    lookupA (DeleteTask cascadeState 1).1.orgIndex (7, 1) = none ∧
    lookupA (DeleteTask cascadeState 1).1.running (1, 3) = none ∧
    lookupA (DeleteTask cascadeState 1).1.manual 1 = some [queuedRun] :=
  ⟨rfl, rfl, rfl, rfl, rfl, rfl⟩

/-- C5: whenever the manual queue is non-empty, CreateNextRun returns
its head (whatever else is due): the head is popped, moved unchanged
into the currently-running partition, no new run is fabricated (the id
generator is untouched), and the result carries the head's id, its
`scheduledFor` as the logical now, whether the queue still has entries,
and the next cron-due time computed from the unmodified schedule. -/
theorem createNextRun_manual_priority (st : State) (t : Nat) (now : Int) (task : Task)
    (mRun : Run) (rest : List Run)
    (htask : lookupA st.tasks t = some task)
    (hq : lookupA st.manual t = some (mRun :: rest)) :
    CreateNextRun st t now =
      ({ st with manual := insertA st.manual t rest,
                 running := insertA st.running (t, mRun.id) mRun },
       .ok { taskID := t, runID := mRun.id, now := mRun.scheduledFor,
             requestedAt := mRun.requestedAt.getD 0,
             nextDue := task.schedNext ((findLatestCompletedTime st t).getD task.createdAt),
             hasQueue := !rest.isEmpty }) ∧
    lookupA (CreateNextRun st t now).1.manual t = some rest ∧
    lookupA (CreateNextRun st t now).1.running (t, mRun.id) = some mRun ∧
    (CreateNextRun st t now).1.nextID = st.nextID := by
  have h := createNextRun_manual st t now task mRun rest htask hq
  refine ⟨h, ?_, ?_, ?_⟩
  · rw [h]
    exact lookupA_insertA st.manual t rest
  · rw [h]
    exact lookupA_insertA st.running (t, mRun.id) mRun
  · rw [h]

/-- Store for the manual-priority witness: the queued manual run sits in
the queue while a scheduled tick (second 30, long past now) is also
due. -/
def manualPriorityState : State :=
  { tasks := [(1, intervalTask 0)], manual := [(1, [queuedRun])], nextID := 9 }

/-- Witness for C5 at a concrete store. -/
theorem createNextRun_manual_priority_witness :
    CreateNextRun manualPriorityState 1 200 =
      ({ manualPriorityState with
           manual := insertA manualPriorityState.manual 1 [],
           running := insertA manualPriorityState.running (1, queuedRun.id) queuedRun },
       .ok { taskID := 1, runID := queuedRun.id, now := queuedRun.scheduledFor,
             requestedAt := queuedRun.requestedAt.getD 0,
             nextDue := (intervalTask 0).schedNext
               ((findLatestCompletedTime manualPriorityState 1).getD (intervalTask 0).createdAt),
             hasQueue := !([] : List Run).isEmpty }) ∧
    lookupA (CreateNextRun manualPriorityState 1 200).1.manual 1 = some [] ∧
    lookupA (CreateNextRun manualPriorityState 1 200).1.running (1, queuedRun.id) = some queuedRun ∧
    (CreateNextRun manualPriorityState 1 200).1.nextID = manualPriorityState.nextID :=
  createNextRun_manual_priority manualPriorityState 1 200 (intervalTask 0) queuedRun [] rfl rfl

/-- C6: ForceRun fails with the RunAlreadyQueued conflict (leaving the
queue, and the whole state, unchanged) exactly when the manual queue
already holds an entry with the identical `scheduledFor`; otherwise it
appends exactly one new run (requestedAt = now, scheduledFor = the
given time) at the tail, after which exactly one queued entry with that
`scheduledFor` exists and a second identical call fails. -/
theorem forceRun_dedup (st : State) (t : Nat) (v now now2 : Int) :
    ((manualRuns st t).any (fun run => run.scheduledFor == v) = true →
       ForceRun st t v now = (st, .error .runAlreadyQueued)) ∧
    ((manualRuns st t).any (fun run => run.scheduledFor == v) = false →
       ForceRun st t v now =
         ({ st with nextID := st.nextID + 1,
                    manual := insertA st.manual t
                      (manualRuns st t ++ [forcedRun st.nextID t v now]) },
          .ok (forcedRun st.nextID t v now)) ∧
       (manualRuns (ForceRun st t v now).1 t).countP
           (fun run => run.scheduledFor == v) = 1 ∧
       ForceRun (ForceRun st t v now).1 t v now2 =
         ((ForceRun st t v now).1, .error .runAlreadyQueued)) := by
  refine ⟨forceRun_conflict st t v now, fun h => ?_⟩
  have hok := forceRun_ok st t v now h
  have hzero : (manualRuns st t).countP (fun run => run.scheduledFor == v) = 0 := by
    rw [List.countP_eq_zero]
    intro a ha
    have := List.any_eq_false.mp h a ha
    simpa using this
  have hqueue : manualRuns (ForceRun st t v now).1 t =
      manualRuns st t ++ [forcedRun st.nextID t v now] := by
    rw [hok]
    simp only [manualRuns]
    rw [lookupA_insertA]
    rfl
  refine ⟨hok, ?_, ?_⟩
  · rw [hqueue, List.countP_append, hzero]
    simp [forcedRun]
  · apply forceRun_conflict
    rw [hqueue]
    rw [List.any_eq_true]
    refine ⟨forcedRun st.nextID t v now, List.mem_append_right _ (List.mem_singleton.mpr rfl), ?_⟩
    simp [forcedRun]

/-- Store for the dedup witness: one queued run with `scheduledFor` 90
already present. -/
def dedupState : State :=
  { tasks := [], manual := [(1, [queuedRun])], nextID := 3 }

/-- Witness for C6 at concrete stores: forcing the already-queued tick
90 fails with the conflict error leaving the state unchanged, and
forcing the fresh tick 7 appends exactly one entry that a second
identical call then refuses. -/
theorem forceRun_dedup_witness :
    ForceRun dedupState 1 90 100 = (dedupState, .error .runAlreadyQueued) ∧
    (ForceRun dedupState 1 7 100 =
       ({ dedupState with nextID := dedupState.nextID + 1,
                          manual := insertA dedupState.manual 1
                            (manualRuns dedupState 1 ++ [forcedRun dedupState.nextID 1 7 100]) },
        .ok (forcedRun dedupState.nextID 1 7 100)) ∧
     (manualRuns (ForceRun dedupState 1 7 100).1 1).countP
         (fun run => run.scheduledFor == 7) = 1 ∧
     ForceRun (ForceRun dedupState 1 7 100).1 1 7 200 =
       ((ForceRun dedupState 1 7 100).1, .error .runAlreadyQueued)) :=
  ⟨(forceRun_dedup dedupState 1 90 100 100).1 rfl,
   (forceRun_dedup dedupState 1 7 100 200).2 rfl⟩

/-- C10: ForceRun never reads the Task record — for a (validly encoded,
nonzero) task id with NO stored Task, it still succeeds and appends the
manual-queue entry under that id rather than failing with a
task-not-found error. -/
theorem forceRun_without_task (st : State) (t : Nat) (v now : Int)
    (hvalid : t ≠ 0)
    (htask : lookupA st.tasks t = none)
    (hnodup : (manualRuns st t).any (fun run => run.scheduledFor == v) = false) :
    ForceRun st t v now =
      ({ st with nextID := st.nextID + 1,
                 manual := insertA st.manual t
                   (manualRuns st t ++ [forcedRun st.nextID t v now]) },
       .ok (forcedRun st.nextID t v now)) ∧
    lookupA (ForceRun st t v now).1.manual t =
      some (manualRuns st t ++ [forcedRun st.nextID t v now]) := by
  have hok := forceRun_ok st t v now hnodup
  refine ⟨hok, ?_⟩
  rw [hok]
  exact lookupA_insertA st.manual t _

/-- Store with no tasks at all. -/
def emptyState : State :=
  { tasks := [], nextID := 1 }

/-- Witness for C10: forcing a run for the absent task 1 succeeds. -/
theorem forceRun_without_task_witness :
    ForceRun emptyState 1 5 9 =
      ({ emptyState with nextID := emptyState.nextID + 1,
                         manual := insertA emptyState.manual 1
                           (manualRuns emptyState 1 ++ [forcedRun emptyState.nextID 1 5 9]) },
       .ok (forcedRun emptyState.nextID 1 5 9)) ∧
    lookupA (ForceRun emptyState 1 5 9).1.manual 1 =
      some (manualRuns emptyState 1 ++ [forcedRun emptyState.nextID 1 5 9]) :=
  forceRun_without_task emptyState 1 5 9 (by decide) rfl rfl

/-- State after the first scheduled tick of the interval scenario: run 5
at second T0+30 in the currently-running partition, id generator
advanced. -/
def c4state1 (T0 : Int) : State :=
  { tasks := [(1, intervalTask T0)],
    running := [((1, 5), schedRun 5 1 (T0 + 30))], nextID := 6 }

/-- State after finishing run 5: the currently-running partition empty,
the latest-completed pointer holding run 5. -/
def c4state2 (T0 : Int) : State :=
  { tasks := [(1, intervalTask T0)],
    latest := [(1, schedRun 5 1 (T0 + 30))], nextID := 6 }

/-- State after the second scheduled tick: run 6 at second T0+60. -/
def c4state3 (T0 : Int) : State :=
  { tasks := [(1, intervalTask T0)],
    latest := [(1, schedRun 5 1 (T0 + 30))],
    running := [((1, 6), schedRun 6 1 (T0 + 60))], nextID := 7 }

/-- C4: the interval scenario.  For a task created at T0 with a
30-second interval and zero offset and an empty manual queue,
CreateNextRun at T0+30 creates run 5 with `scheduledFor` T0+30 and
status "scheduled" (via `schedRun`) reporting next-due T0+60; after
FinishRun promotes that run to the latest-completed pointer,
CreateNextRun at T0+65 creates exactly one new run, with `scheduledFor`
T0+60 (one tick at a time, no batching); and in general, whenever the
computed due time is after now, CreateNextRun returns the not-yet-due
signal carrying that due time and, the transaction aborting, creates no
run. -/
theorem createNextRun_interval_scenario (T0 : Int) (hT0 : 0 ≤ T0) :
    (CreateNextRun (intervalState T0) 1 (T0 + 30)).2 =
      .ok { taskID := 1, runID := 5, now := T0 + 30, nextDue := T0 + 60, hasQueue := false } ∧
    (CreateNextRun (intervalState T0) 1 (T0 + 30)).1.running =
      [((1, 5), schedRun 5 1 (T0 + 30))] ∧
    (FinishRun (CreateNextRun (intervalState T0) 1 (T0 + 30)).1 1 5).2 =
      .ok (schedRun 5 1 (T0 + 30)) ∧
    lookupA (FinishRun (CreateNextRun (intervalState T0) 1 (T0 + 30)).1 1 5).1.latest 1 =
      some (schedRun 5 1 (T0 + 30)) ∧
    (CreateNextRun (FinishRun (CreateNextRun (intervalState T0) 1 (T0 + 30)).1 1 5).1
        1 (T0 + 65)).2 =
      .ok { taskID := 1, runID := 6, now := T0 + 60, nextDue := T0 + 90, hasQueue := false } ∧
    (CreateNextRun (FinishRun (CreateNextRun (intervalState T0) 1 (T0 + 30)).1 1 5).1
        1 (T0 + 65)).1.running =
      [((1, 6), schedRun 6 1 (T0 + 60))] ∧
    (∀ (st : State) (t : Nat) (task : Task) (now : Int),
       lookupA st.tasks t = some task → manualRuns st t = [] →
       schedDueAt st t task > now →
       CreateNextRun st t now = (st, .error (.runNotYetDue (schedDueAt st t task)))) := by
  have hdue1 : schedDueAt (intervalState T0) 1 (intervalTask T0) ≤ T0 + 30 := by
    show T0 + 30 + 0 ≤ T0 + 30
    omega
  have h1 : CreateNextRun (intervalState T0) 1 (T0 + 30) =
      (c4state1 T0,
       .ok { taskID := 1, runID := 5, now := T0 + 30, nextDue := T0 + 60, hasQueue := false }) := by
    rw [createNextRun_scheduled (intervalState T0) 1 (T0 + 30) (intervalTask T0) rfl rfl hdue1]
    simp [c4state1, intervalState, intervalTask, schedAnchor, findLatestCompleted,
          lookupA, schedRun, insertA]
    omega
  have hgt : (schedRun 5 1 (T0 + 30)).scheduledFor > latestSchedFor (c4state1 T0) 1 := by
    show T0 + 30 > -62135596800
    omega
  have h2 : FinishRun (c4state1 T0) 1 5 = (c4state2 T0, .ok (schedRun 5 1 (T0 + 30))) := by
    rw [finishRun_eq (c4state1 T0) 1 5 (schedRun 5 1 (T0 + 30)) rfl]
    rw [if_pos hgt]
    rfl
  have hanchor3 : schedAnchor (c4state2 T0) 1 (intervalTask T0) = T0 + 30 := by
    show (if T0 + 30 > T0 then T0 + 30 else T0) = T0 + 30
    rw [if_pos (by omega)]
  have hdue3 : schedDueAt (c4state2 T0) 1 (intervalTask T0) ≤ T0 + 65 := by
    show (intervalTask T0).schedNext (schedAnchor (c4state2 T0) 1 (intervalTask T0)) +
        (intervalTask T0).offset ≤ T0 + 65
    rw [hanchor3]
    show T0 + 30 + 30 + 0 ≤ T0 + 65
    omega
  have h3 : CreateNextRun (c4state2 T0) 1 (T0 + 65) =
      (c4state3 T0,
       .ok { taskID := 1, runID := 6, now := T0 + 60, nextDue := T0 + 90, hasQueue := false }) := by
    rw [createNextRun_scheduled (c4state2 T0) 1 (T0 + 65) (intervalTask T0) rfl rfl hdue3]
    rw [hanchor3]
    simp [c4state2, c4state3, intervalTask, schedRun, insertA]
    omega
  refine ⟨?_, ?_, ?_, ?_, ?_, ?_, ?_⟩
  · simp only [h1]
  · simp only [h1]
    rfl
  · simp only [h1, h2]
  · simp only [h1, h2]
    rfl
  · simp only [h1, h2, h3]
  · simp only [h1, h2, h3]
    rfl
  · exact fun st t task now ht hq hd => createNextRun_notYetDue st t now task ht hq hd

/-- Witness for C4 at T0 = 0: the two created ticks, the promotion, and
one concrete not-yet-due call (now = 10, due at 30) that leaves the
store unchanged. -/
theorem createNextRun_interval_scenario_witness :
    (CreateNextRun (intervalState 0) 1 (0 + 30)).2 =
      .ok { taskID := 1, runID := 5, now := 0 + 30, nextDue := 0 + 60, hasQueue := false } ∧
    (FinishRun (CreateNextRun (intervalState 0) 1 (0 + 30)).1 1 5).2 =
      .ok (schedRun 5 1 (0 + 30)) ∧
    (CreateNextRun (FinishRun (CreateNextRun (intervalState 0) 1 (0 + 30)).1 1 5).1
        1 (0 + 65)).2 =
      .ok { taskID := 1, runID := 6, now := 0 + 60, nextDue := 0 + 90, hasQueue := false } ∧
    CreateNextRun (intervalState 0) 1 10 =
      (intervalState 0,
       .error (.runNotYetDue (schedDueAt (intervalState 0) 1 (intervalTask 0)))) := by
  have h := createNextRun_interval_scenario 0 (by norm_num)
  refine ⟨h.1, h.2.2.1, h.2.2.2.2.1, ?_⟩
  refine h.2.2.2.2.2.2 (intervalState 0) 1 (intervalTask 0) 10 rfl rfl ?_
  show (0 : Int) + 30 + 0 > 10
  norm_num

end TaskKV
